import Mathlib

/-!
Verification of the EduScan student learning-risk assessment dashboard.

The definitions below are a shallow embedding of the repository's Python
source (`src/pages/01_Prediction.py`, `src/pages/03_Parent_Tracker.py`,
`src/utils/auth_utils.py`).  Probabilities and numeric scores are embedded
as rationals; Python dictionaries become association lists with Python's
literal-merge semantics (later keys overwrite earlier ones); fallible file
reads become an explicit file-state inductive.
-/

namespace EduScan

/-- The three risk tiers derived from a model probability
(spec §3 `RiskTier`). -/
inductive RiskTier where
  | Low
  | Medium
  | High
  deriving DecidableEq, Repr

/-- Risk bucketing on the single-student path,
`src/pages/01_Prediction.py` lines 511–522:
`if prediction_prob < 0.3: ... elif prediction_prob < 0.7: ... else: ...`. -/
def classifySingle (p : ℚ) : RiskTier :=
  if p < 3/10 then .Low
  else if p < 7/10 then .Medium
  else .High

/-- Risk bucketing on the batch path,
`src/pages/01_Prediction.py` lines 695–700: the same thresholds,
producing the strings `"Low Risk"` / `"Medium Risk"` / `"High Risk"`. -/
def classifyBatch (p : ℚ) : RiskTier :=
  if p < 3/10 then .Low
  else if p < 7/10 then .Medium
  else .High

/-- `validate_inputs` from `src/pages/01_Prediction.py` lines 120–137:
starts from an empty list and conditionally appends one error message per
out-of-range field, in source order; rendered here as the in-order
concatenation of the conditional singletons. -/
def validate_inputs (math_score reading_score writing_score attendance
    behavior literacy : ℚ) : List String :=
  (if ¬ (0 ≤ math_score ∧ math_score ≤ 100) then
      ["Math score must be between 0 and 100"] else []) ++
  (if ¬ (0 ≤ reading_score ∧ reading_score ≤ 100) then
      ["Reading score must be between 0 and 100"] else []) ++
  (if ¬ (0 ≤ writing_score ∧ writing_score ≤ 100) then
      ["Writing score must be between 0 and 100"] else []) ++
  (if ¬ (0 ≤ attendance ∧ attendance ≤ 100) then
      ["Attendance must be between 0 and 100%"] else []) ++
  (if ¬ (1 ≤ behavior ∧ behavior ≤ 5) then
      ["Behavior rating must be between 1 and 5"] else []) ++
  (if ¬ (1 ≤ literacy ∧ literacy ≤ 10) then
      ["Literacy level must be between 1 and 10"] else [])

/-- The predict-button flow of `main`, `src/pages/01_Prediction.py`
lines 467–485: run `validate_inputs`; when the error list is non-empty the
errors are displayed and the model is never called, otherwise
`make_prediction` runs on the six fields.  The model itself
(`utils/model_utils.make_prediction`, not under `src/`) is an arbitrary
function parameter `predict`. -/
def singlePredictFlow (predict : ℚ → ℚ → ℚ → ℚ → ℚ → ℚ → ℚ)
    (m r w a b l : ℚ) : Option ℚ :=
  let errors := validate_inputs m r w a b l
  if errors.isEmpty then some (predict m r w a b l) else none

end EduScan

namespace EduScan

/-- C1: tiers are assigned by the stated half-open thresholds, the
boundaries 0.30 and 0.70 fall in the upper tier, and the single-student
and batch paths agree. -/
theorem classify_thresholds (p : ℚ) :
    (classifySingle p = .Low ↔ p < 3/10) ∧
    (classifySingle p = .High ↔ 7/10 ≤ p) ∧
    (classifySingle p = .Medium ↔ ¬ p < 3/10 ∧ ¬ 7/10 ≤ p) ∧
    classifySingle (3/10) = .Medium ∧
    classifySingle (7/10) = .High ∧
    classifySingle p = classifyBatch p := by
  have hb1 : classifySingle (3/10) = .Medium := by norm_num [classifySingle]
  have hb2 : classifySingle (7/10) = .High := by norm_num [classifySingle]
  rcases lt_or_le p (3/10) with h1 | h1
  · have h2 : p < 7/10 := by linarith
    have h3 : ¬ (7/10 : ℚ) ≤ p := by linarith
    simp [classifySingle, classifyBatch, h1, h2, hb1, hb2, h3]
    norm_num
  · rcases lt_or_le p (7/10) with h2 | h2
    · have h1' : ¬ p < 3/10 := not_lt.mpr h1
      have h3 : ¬ (7/10 : ℚ) ≤ p := not_le.mpr h2
      simp [classifySingle, classifyBatch, h1', h2, hb1, hb2, h3]
      norm_num
    · have h1' : ¬ p < 3/10 := by linarith
      have h2' : ¬ p < 7/10 := not_lt.mpr h2
      simp [classifySingle, classifyBatch, h1', h2', hb1, hb2, h2]
      norm_num

/-- A conditional singleton message list is empty exactly when the bound
holds. -/
lemma ite_msg_nil (c : Prop) [Decidable c] (s : String) :
    ((if ¬ c then [s] else ([] : List String)) = []) ↔ c := by
  split_ifs with h <;> simp_all

/-- C2: the validator returns no errors exactly when all six fields are in
range; each violated field contributes its message (all are collected);
and a non-empty error list means the model is never invoked on the
single-student path. -/
theorem validate_inputs_spec (m r w a b l : ℚ) :
    (validate_inputs m r w a b l = [] ↔
      (0 ≤ m ∧ m ≤ 100) ∧ (0 ≤ r ∧ r ≤ 100) ∧ (0 ≤ w ∧ w ≤ 100) ∧
      (0 ≤ a ∧ a ≤ 100) ∧ (1 ≤ b ∧ b ≤ 5) ∧ (1 ≤ l ∧ l ≤ 10)) ∧
    (¬ (0 ≤ m ∧ m ≤ 100) →
      "Math score must be between 0 and 100" ∈ validate_inputs m r w a b l) ∧
    (¬ (0 ≤ r ∧ r ≤ 100) →
      "Reading score must be between 0 and 100" ∈ validate_inputs m r w a b l) ∧
    (¬ (0 ≤ w ∧ w ≤ 100) →
      "Writing score must be between 0 and 100" ∈ validate_inputs m r w a b l) ∧
    (¬ (0 ≤ a ∧ a ≤ 100) →
      "Attendance must be between 0 and 100%" ∈ validate_inputs m r w a b l) ∧
    (¬ (1 ≤ b ∧ b ≤ 5) →
      "Behavior rating must be between 1 and 5" ∈ validate_inputs m r w a b l) ∧
    (¬ (1 ≤ l ∧ l ≤ 10) →
      "Literacy level must be between 1 and 10" ∈ validate_inputs m r w a b l) ∧
    (validate_inputs m r w a b l ≠ [] →
      ∀ predict, singlePredictFlow predict m r w a b l = none) := by
  refine ⟨?_, ?_, ?_, ?_, ?_, ?_, ?_, ?_⟩
  · simp only [validate_inputs, List.append_eq_nil, ite_msg_nil]
    tauto
  · intro h; simp [validate_inputs, h]
  · intro h; simp [validate_inputs, h]
  · intro h; simp [validate_inputs, h]
  · intro h; simp [validate_inputs, h]
  · intro h; simp [validate_inputs, h]
  · intro h; simp [validate_inputs, h]
  · intro h predict
    simp only [singlePredictFlow]
    rw [if_neg]
    simp [List.isEmpty_iff, h]

/-- Witness for C2 at the spec's scenario-3 input: attendance 150 is
rejected with the 0–100 message and no model call happens. -/
theorem validate_inputs_spec_witness :
    "Attendance must be between 0 and 100%" ∈ validate_inputs 75 80 70 150 3 6 ∧
    singlePredictFlow (fun _ _ _ _ _ _ => 0) 75 80 70 150 3 6 = none := by
  have h := validate_inputs_spec 75 80 70 150 3 6
  refine ⟨h.2.2.2.2.1 (by norm_num), h.2.2.2.2.2.2.2 ?_ _⟩
  have hmem := h.2.2.2.2.1 (by norm_num)
  intro hnil
  rw [hnil] at hmem
  exact (List.not_mem_nil _) hmem

/-- A scalar cell of an uploaded table or of a JSON record. -/
inductive Value where
  | intV (n : ℤ)
  | ratV (q : ℚ)
  | strV (s : String)
  deriving DecidableEq, Repr

/-- A Python dict (a table row, a JSON record): an insertion-ordered
association list.  Rows coming from `DataFrame.iterrows()` have pairwise
distinct keys (the column names). -/
abbrev Row := List (String × Value)

/-- Python `d[k] = v` on a dict: overwrite the value in place when the key
exists, otherwise append the new entry at the end. -/
def dictUpdate (d : Row) (k : String) (v : Value) : Row :=
  if (d.map Prod.fst).contains k then
    d.map (fun p => if p.1 = k then (k, v) else p)
  else d ++ [(k, v)]

/-- Python dict-literal merge `{**d, **entries}`: entries are inserted in
order, later keys overwriting earlier ones. -/
def dictMerge (d : Row) (entries : Row) : Row :=
  entries.foldl (fun acc p => dictUpdate acc p.1 p.2) d

lemma lookup_cons_eq (a : String) (b : Value) (tl : Row) :
    ((a, b) :: tl).lookup a = some b := by
  simp [List.lookup]

lemma lookup_cons_ne (a : String) (b : Value) (tl : Row) (k : String)
    (h : ¬ k = a) : ((a, b) :: tl).lookup k = tl.lookup k := by
  simp [List.lookup, beq_false_of_ne h]

lemma lookup_overwrite_ne (d : Row) (k k' : String) (v : Value) (hne : ¬ k' = k) :
    (d.map (fun p => if p.1 = k then (k, v) else p)).lookup k' = d.lookup k' := by
  induction d with
  | nil => rfl
  | cons hd tl ih =>
    obtain ⟨a, b⟩ := hd
    by_cases h : a = k
    · subst h
      have hrw : (if (a, b).1 = a then (a, v) else (a, b)) = (a, v) := by simp
      rw [List.map_cons, hrw, lookup_cons_ne _ _ _ _ hne,
        lookup_cons_ne _ _ _ _ hne]
      exact ih
    · have hrw : (if (a, b).1 = k then (k, v) else (a, b)) = (a, b) := by
        simp [h]
      rw [List.map_cons, hrw]
      by_cases hk : k' = a
      · subst hk; rw [lookup_cons_eq, lookup_cons_eq]
      · rw [lookup_cons_ne _ _ _ _ hk, lookup_cons_ne _ _ _ _ hk]
        exact ih

lemma lookup_overwrite_eq (d : Row) (k : String) (v : Value)
    (hmem : k ∈ d.map Prod.fst) :
    (d.map (fun p => if p.1 = k then (k, v) else p)).lookup k = some v := by
  induction d with
  | nil => simp at hmem
  | cons hd tl ih =>
    obtain ⟨a, b⟩ := hd
    by_cases h : a = k
    · subst h
      have hrw : (if (a, b).1 = a then (a, v) else (a, b)) = (a, v) := by simp
      rw [List.map_cons, hrw]
      exact lookup_cons_eq _ _ _
    · have hrw : (if (a, b).1 = k then (k, v) else (a, b)) = (a, b) := by
        simp [h]
      rw [List.map_cons, hrw, lookup_cons_ne _ _ _ _ (fun hk => h hk.symm)]
      rw [List.map_cons] at hmem
      rcases List.mem_cons.mp hmem with h1 | h1
      · exact absurd h1.symm h
      · exact ih h1

lemma lookup_eq_none_of_not_mem (d : Row) (k : String)
    (h : ¬ k ∈ d.map Prod.fst) : d.lookup k = none := by
  induction d with
  | nil => rfl
  | cons hd tl ih =>
    obtain ⟨a, b⟩ := hd
    simp only [List.map_cons, List.mem_cons, not_or] at h
    rw [lookup_cons_ne _ _ _ _ h.1]
    exact ih h.2

lemma lookup_append_single (d : Row) (k k' : String) (v : Value)
    (hm : ¬ k' ∈ d.map Prod.fst) :
    (d ++ [(k, v)]).lookup k' = if k' = k then some v else none := by
  induction d with
  | nil =>
    by_cases h : k' = k
    · subst h; simp [lookup_cons_eq]
    · rw [List.nil_append, lookup_cons_ne _ _ _ _ h, if_neg h]; rfl
  | cons hd tl ih =>
    obtain ⟨a, b⟩ := hd
    simp only [List.map_cons, List.mem_cons, not_or] at hm
    rw [List.cons_append, lookup_cons_ne _ _ _ _ hm.1]
    exact ih hm.2

lemma lookup_isSome_of_mem (d : Row) (k : String)
    (h : k ∈ d.map Prod.fst) : ∃ v, d.lookup k = some v := by
  induction d with
  | nil => simp at h
  | cons hd tl ih =>
    obtain ⟨a, b⟩ := hd
    by_cases hk : k = a
    · subst hk; exact ⟨b, lookup_cons_eq _ _ _⟩
    · simp only [List.map_cons, List.mem_cons] at h
      rcases h with h | h
      · exact absurd h hk
      · rw [lookup_cons_ne _ _ _ _ hk]
        exact ih h

lemma lookup_append_single_ne (d : Row) (k k' : String) (v : Value)
    (hk : ¬ k' = k) : (d ++ [(k, v)]).lookup k' = d.lookup k' := by
  induction d with
  | nil => rw [List.nil_append, lookup_cons_ne _ _ _ _ hk]
  | cons hd tl ih =>
    obtain ⟨a, b⟩ := hd
    by_cases hka : k' = a
    · subst hka
      rw [List.cons_append, lookup_cons_eq, lookup_cons_eq]
    · rw [List.cons_append, lookup_cons_ne _ _ _ _ hka,
        lookup_cons_ne _ _ _ _ hka]
      exact ih

lemma dictUpdate_lookup (d : Row) (k : String) (v : Value) (k' : String) :
    (dictUpdate d k v).lookup k' = if k' = k then some v else d.lookup k' := by
  unfold dictUpdate
  by_cases hmem : ((d.map Prod.fst).contains k : Bool)
  · rw [if_pos hmem]
    have hm : k ∈ d.map Prod.fst := by simpa using hmem
    by_cases hk : k' = k
    · subst hk
      have hgoal := lookup_overwrite_eq d k' v hm
      rw [if_pos rfl]
      exact hgoal
    · rw [if_neg hk]; exact lookup_overwrite_ne d k k' v hk
  · rw [if_neg hmem]
    have hm : ¬ k ∈ d.map Prod.fst := by simpa using hmem
    by_cases hk : k' = k
    · subst hk
      rw [lookup_append_single d k' k' v hm, if_pos rfl, if_pos rfl]
    · rw [if_neg hk]
      exact lookup_append_single_ne d k k' v hk

/-- Merging entries with pairwise-distinct keys: an entry's key looks up
the entry's value, anything else falls through to the base dict. -/
lemma dictMerge_lookup_nodup (entries : Row) (d : Row)
    (hnd : (entries.map Prod.fst).Nodup) (k : String) :
    (dictMerge d entries).lookup k =
      match entries.lookup k with
      | some v => some v
      | none => d.lookup k := by
  induction entries generalizing d with
  | nil => rfl
  | cons hd tl ih =>
    obtain ⟨a, b⟩ := hd
    simp only [List.map_cons, List.nodup_cons] at hnd
    have step : dictMerge d ((a, b) :: tl) = dictMerge (dictUpdate d a b) tl := rfl
    rw [step, ih (dictUpdate d a b) hnd.2]
    by_cases hk : k = a
    · subst hk
      rw [lookup_eq_none_of_not_mem tl k hnd.1, lookup_cons_eq,
        dictUpdate_lookup, if_pos rfl]
    · rw [lookup_cons_ne _ _ _ _ hk, dictUpdate_lookup, if_neg hk]

/-- The tier strings written into the batch results,
`src/pages/01_Prediction.py` lines 695–706. -/
def batchRiskString : RiskTier → String
  | .Low => "Low Risk"
  | .Medium => "Medium Risk"
  | .High => "High Risk"

/-- Python `f"{p:.1%}"` (line 705): the probability as a percentage with
one decimal place.  On the rational embedding ties round half away from
zero; Python rounds the float's shortest decimal, which agrees away from
representation ties. -/
def formatPct (p : ℚ) : String :=
  let tenths : ℤ := round (p * 1000)
  toString (tenths / 10) ++ "." ++ toString (tenths % 10) ++ "%"

/-- One result row of the batch loop, `src/pages/01_Prediction.py` lines
691–707: the Python dict literal
`{Student_ID: idx+1, Risk_Level: ..., Risk_Probability: ..., **row}` —
the row's own entries are merged last and overwrite on key collision. -/
def processBatchRow (predict : Row → ℚ) (idx : ℕ) (row : Row) : Row :=
  dictMerge
    [("Student_ID", .intV (idx + 1)),
     ("Risk_Level", .strV (batchRiskString (classifyBatch (predict row)))),
     ("Risk_Probability", .strV (formatPct (predict row)))]
    row

/-- The `for idx, row in df.iterrows()` loop: one result per row, index
increasing from 0. -/
def processBatchAux (predict : Row → ℚ) : ℕ → List Row → List Row
  | _, [] => []
  | idx, row :: rest =>
      processBatchRow predict idx row :: processBatchAux predict (idx + 1) rest

def processBatch (predict : Row → ℚ) (df : List Row) : List Row :=
  processBatchAux predict 0 df

/-- The six required batch columns, `src/pages/01_Prediction.py` line 678. -/
def required_columns : List String :=
  ["math_score", "reading_score", "writing_score", "attendance",
   "behavior", "literacy"]

/-- `missing_columns` (line 679): the required columns absent from the
uploaded table, in required order. -/
def missing_columns (cols : List String) : List String :=
  required_columns.filter (fun c => ¬ cols.contains c)

/-- Outcome of a batch upload (lines 681–714): either rejected with the
missing-column list, or processed row by row. -/
inductive BatchOutcome where
  | rejected (missing : List String)
  | processed (results : List Row)
  deriving DecidableEq, Repr

def batchFlow (predict : Row → ℚ) (cols : List String) (df : List Row) :
    BatchOutcome :=
  let missing := missing_columns cols
  if missing.isEmpty then .processed (processBatch predict df)
  else .rejected missing

/-- `display_recommendations` from `src/pages/01_Prediction.py` lines
200–236: the recommendation list is selected by the risk tier alone; the
`student_data` argument is never consulted for the list (the source keys
the branches on the localized tier string; the tier enum stands for it). -/
def display_recommendations (risk_level : RiskTier) (student_data : Row) :
    List String :=
  match risk_level, student_data with
  | .Low, _ =>
      ["Maintain current learning pace and methods",
       "Continue regular progress monitoring",
       "Encourage continued engagement in all subjects",
       "Consider enrichment activities to challenge the student"]
  | .Medium, _ =>
      ["Implement targeted interventions in lower-performing areas",
       "Increase frequency of progress monitoring",
       "Consider additional support in specific subjects",
       "Engage parents in home-based learning activities",
       "Explore different teaching methods and materials"]
  | .High, _ =>
      ["Initiate comprehensive assessment by learning specialists",
       "Implement intensive intervention strategies",
       "Consider individualized education plan (IEP)",
       "Increase collaboration between teachers and parents",
       "Explore assistive technologies and adaptive methods",
       "Regular monitoring and adjustment of intervention strategies"]

lemma processBatchAux_length (predict : Row → ℚ) (start : ℕ) (df : List Row) :
    (processBatchAux predict start df).length = df.length := by
  induction df generalizing start with
  | nil => rfl
  | cons row rest ih => simp [processBatchAux, ih]

lemma processBatchAux_getElem (predict : Row → ℚ) (start : ℕ) (df : List Row)
    (i : ℕ) :
    (processBatchAux predict start df)[i]? =
      (df[i]?).map (processBatchRow predict (start + i)) := by
  induction df generalizing start i with
  | nil => simp [processBatchAux]
  | cons row rest ih =>
    cases i with
    | zero => simp [processBatchAux]
    | succ j =>
      have harith : start + (j + 1) = (start + 1) + j := by omega
      simp only [processBatchAux, List.getElem?_cons_succ, harith,
        ih (start + 1) j]

/-- C3: a column is reported missing exactly when it is required and not
in the uploaded table; a non-empty missing list rejects the batch with
exactly that list, and no row is processed (the outcome is the same for
every model). -/
theorem batch_missing_columns (predict : Row → ℚ) (cols : List String)
    (df : List Row) :
    (∀ c, c ∈ missing_columns cols ↔ c ∈ required_columns ∧ ¬ c ∈ cols) ∧
    (missing_columns cols ≠ [] →
      batchFlow predict cols df = .rejected (missing_columns cols) ∧
      ∀ predict', batchFlow predict cols df = batchFlow predict' cols df) := by
  constructor
  · intro c
    simp [missing_columns, List.mem_filter]
  · intro h
    have hne : ¬ (missing_columns cols).isEmpty = true := by
      simpa [List.isEmpty_iff] using h
    constructor
    · simp only [batchFlow, if_neg hne]
    · intro predict'
      simp only [batchFlow, if_neg hne]

/-- Witness for C3 at the spec's scenario-2 upload: a table lacking only
the `behavior` column is rejected with exactly `behavior` missing. -/
theorem batch_missing_columns_witness :
    batchFlow (fun _ => 0) ["math_score", "reading_score", "writing_score",
        "attendance", "literacy"] [] = .rejected ["behavior"] := by
  have h := (batch_missing_columns (fun _ => 0)
      ["math_score", "reading_score", "writing_score", "attendance",
       "literacy"] []).2 (by decide)
  rw [h.1]
  rfl

/-- C4: the recommendation resolver is pure and idempotent — two calls at
one tier give identical lists, and the list is the same for every student
sharing the tier, independent of the student's fields. -/
theorem recommendations_static (t : RiskTier) (s₁ s₂ : Row) :
    display_recommendations t s₁ = display_recommendations t s₂ ∧
    display_recommendations t s₁ = display_recommendations t s₁ := by
  cases t <;> exact ⟨rfl, rfl⟩

/-- A batch input row that itself carries a `Risk_Level` column. -/
def cexRow : Row :=
  [("math_score", .ratV 75), ("reading_score", .ratV 80),
   ("writing_score", .ratV 70), ("attendance", .ratV 85),
   ("behavior", .ratV 3), ("literacy", .ratV 6),
   ("Risk_Level", .strV "X")]

/-- C5 counterexample: when an input column is named `Risk_Level`, the
pass-through wins (`{**derived, **row}` merges the row last) and the
output's `Risk_Level` is the input's value, not the derived tier — the
claim's "plus the derived Risk_Level column" fails for this input. -/
theorem batch_passthrough_cex :
    (processBatchRow (fun _ => 0) 0 cexRow).lookup "Risk_Level"
        = some (.strV "X") ∧
    batchRiskString (classifyBatch 0) = "Low Risk" ∧
    ¬ (processBatchRow (fun _ => 0) 0 cexRow).lookup "Risk_Level"
        = some (.strV (batchRiskString (classifyBatch 0))) := by
  have hc : classifyBatch 0 = .Low := by norm_num [classifyBatch]
  refine ⟨by decide, ?_, ?_⟩
  · rw [hc]
    rfl
  · rw [hc]
    decide

/-- C5 (amended): each processed batch yields exactly one output row per
input row; every input column's value passes through untouched; and the
derived `Risk_Level` / `Risk_Probability` columns carry the derived
values provided the input row has no column of that name (an input column
so named overwrites the derived value). -/
theorem batch_output_rows (predict : Row → ℚ) (df : List Row) :
    (processBatch predict df).length = df.length ∧
    (∀ i, (processBatch predict df)[i]? =
      (df[i]?).map (processBatchRow predict i)) ∧
    (∀ i (row : Row), (row.map Prod.fst).Nodup →
      (∀ k, k ∈ row.map Prod.fst →
        (processBatchRow predict i row).lookup k = row.lookup k) ∧
      (¬ "Risk_Level" ∈ row.map Prod.fst →
        (processBatchRow predict i row).lookup "Risk_Level" =
          some (.strV (batchRiskString (classifyBatch (predict row))))) ∧
      (¬ "Risk_Probability" ∈ row.map Prod.fst →
        (processBatchRow predict i row).lookup "Risk_Probability" =
          some (.strV (formatPct (predict row))))) := by
  refine ⟨processBatchAux_length predict 0 df, ?_, ?_⟩
  · intro i
    simpa using processBatchAux_getElem predict 0 df i
  · intro i row hnd
    refine ⟨?_, ?_, ?_⟩
    · intro k hk
      obtain ⟨v, hv⟩ := lookup_isSome_of_mem row k hk
      rw [processBatchRow, dictMerge_lookup_nodup row _ hnd k, hv]
    · intro hnm
      rw [processBatchRow, dictMerge_lookup_nodup row _ hnd _,
        lookup_eq_none_of_not_mem row _ hnm]
      rw [lookup_cons_ne _ _ _ _ (by decide), lookup_cons_eq]
    · intro hnm
      rw [processBatchRow, dictMerge_lookup_nodup row _ hnd _,
        lookup_eq_none_of_not_mem row _ hnm]
      rw [lookup_cons_ne _ _ _ _ (by decide),
        lookup_cons_ne _ _ _ _ (by decide), lookup_cons_eq]

/-- Witness for C5 (amended) at a concrete one-row batch: the input cell
passes through and the derived columns appear. -/
theorem batch_output_rows_witness :
    (processBatchRow (fun _ => 0) 0 [("math_score", Value.ratV 75)]).lookup
        "math_score" = some (Value.ratV 75) ∧
    (processBatchRow (fun _ => 0) 0 [("math_score", Value.ratV 75)]).lookup
        "Risk_Level" = some (.strV (batchRiskString (classifyBatch 0))) := by
  have h := (batch_output_rows (fun _ => 0) [[("math_score", Value.ratV 75)]]).2.2
      0 [("math_score", Value.ratV 75)] (by decide)
  exact ⟨(h.1 "math_score" (by decide)).trans (by decide),
    h.2.1 (by decide)⟩

/-- A record of `data/users.json`: `{username, password, role}`
(`src/utils/auth_utils.py`). -/
structure UserRec where
  username : String
  password : String
  role : String
  deriving DecidableEq, Repr

/-- The three default accounts `_load_users` writes on a fresh
installation, `src/utils/auth_utils.py` lines 14–18. -/
def dummy_users : List UserRec :=
  [⟨"teacher1", "password123", "teacher"⟩,
   ⟨"parent1", "password123", "parent"⟩,
   ⟨"admin", "adminpassword", "admin"⟩]

/-- The observable states of the `data/users.json` file that
`_load_users` distinguishes. -/
inductive UsersFile where
  | absent                      -- `not os.path.exists(USERS_FILE)`
  | empty                       -- `os.stat(USERS_FILE).st_size == 0`
  | corrupt                     -- present but `json.JSONDecodeError`
  | unreadable                  -- any other read exception
  | valid (users : List UserRec)
  deriving Repr

/-- `_load_users`, `src/utils/auth_utils.py` lines 8–31: an absent or
empty file is (re)created with the three dummy accounts, which are
returned; a JSON decode error or any other read error reports and
returns `[]`; otherwise the decoded records are returned.  The result is
the loaded list paired with the file state afterwards. -/
def _load_users : UsersFile → List UserRec × UsersFile
  | .absent => (dummy_users, .valid dummy_users)
  | .empty => (dummy_users, .valid dummy_users)
  | .corrupt => ([], .corrupt)
  | .unreadable => ([], .unreadable)
  | .valid users => (users, .valid users)

/-- The linear scan of `authenticate_user`, `src/utils/auth_utils.py`
lines 36–41: the first record whose username and password both equal the
supplied strings (plaintext comparison, no hashing). -/
def findUser (users : List UserRec) (username password : String) :
    Option UserRec :=
  users.find? (fun u => u.username == username && u.password == password)

/-- `authenticate_user`, lines 33–43: true exactly when the scan found a
match. -/
def authenticate_user (file : UsersFile) (username password : String) :
    Bool :=
  (findUser (_load_users file).1 username password).isSome

/-- The message `render_login_page` shows after a submitted login,
`src/utils/auth_utils.py` lines 79–84: a personalized welcome on
success, and the one generic `"Invalid username or password."` on every
failure, whatever its cause. -/
def loginMessage (file : UsersFile) (username password : String) : String :=
  match findUser (_load_users file).1 username password with
  | some u =>
      "Welcome, " ++ u.username ++ " (" ++ u.role.capitalize ++ ")!"
  | none => "Invalid username or password."

/-- C6: authentication succeeds exactly when some stored record matches
both fields by string equality, and every failed attempt produces the
same generic message, so an unknown username is indistinguishable from a
wrong password. -/
theorem authenticate_user_spec (users : List UserRec)
    (username password : String) :
    (authenticate_user (.valid users) username password = true ↔
      ∃ u ∈ users, u.username = username ∧ u.password = password) ∧
    (∀ u₁ p₁ u₂ p₂,
      authenticate_user (.valid users) u₁ p₁ = false →
      authenticate_user (.valid users) u₂ p₂ = false →
      loginMessage (.valid users) u₁ p₁ = loginMessage (.valid users) u₂ p₂) := by
  constructor
  · simp [authenticate_user, findUser, _load_users, List.find?_isSome,
      Bool.and_eq_true, beq_iff_eq]
  · intro u₁ p₁ u₂ p₂ h₁ h₂
    simp only [authenticate_user, _load_users] at h₁ h₂
    have e₁ : findUser users u₁ p₁ = none := by
      cases hf : findUser users u₁ p₁ with
      | none => rfl
      | some u => rw [hf] at h₁; simp at h₁
    have e₂ : findUser users u₂ p₂ = none := by
      cases hf : findUser users u₂ p₂ with
      | none => rfl
      | some u => rw [hf] at h₂; simp at h₂
    simp only [loginMessage, _load_users]
    rw [e₁, e₂]

/-- Witness for C6: with the default accounts, an unknown username and a
wrong password for an existing username fail with identical messages. -/
theorem authenticate_user_spec_witness :
    authenticate_user (.valid dummy_users) "nosuchuser" "x" = false ∧
    authenticate_user (.valid dummy_users) "teacher1" "wrong" = false ∧
    loginMessage (.valid dummy_users) "nosuchuser" "x" =
      loginMessage (.valid dummy_users) "teacher1" "wrong" := by
  refine ⟨by decide, by decide, ?_⟩
  exact (authenticate_user_spec dummy_users "" "").2
    "nosuchuser" "x" "teacher1" "wrong" (by decide) (by decide)

/-- C7: a corrupt (undecodable JSON) or otherwise unreadable users file
loads as the empty collection instead of raising, and authentication then
behaves as if no records exist. -/
theorem load_users_corrupt_spec :
    (_load_users .corrupt).1 = [] ∧
    (_load_users .unreadable).1 = [] ∧
    (∀ username password,
      authenticate_user .corrupt username password = false ∧
      authenticate_user .unreadable username password = false) := by
  exact ⟨rfl, rfl, fun _ _ => ⟨rfl, rfl⟩⟩

/-- Modelled from the spec: the Record Store (`utils/data_utils.py`,
whose `save_prediction_data` / `load_student_data` /
`save_parent_observation` / `load_parent_observations` are imported by
`src/pages/01_Prediction.py` and `src/pages/03_Parent_Tracker.py` but the
module itself is not under `src/`).  Spec §4.5: `append(record)` opens
the backing store, loads the existing records — an empty collection when
the store is absent or unreadable — appends the new record, and writes
the whole collection back; `load_all()` returns the stored sequence. -/
inductive StoreState where
  | missing                     -- absent or unreadable backing file
  | stored (records : List Row)

/-- Modelled from the spec: reading the store, empty when missing. -/
def loadRecords : StoreState → List Row
  | .missing => []
  | .stored records => records

/-- Modelled from the spec: load existing records, append, write back. -/
def appendRecord (s : StoreState) (record : Row) : StoreState :=
  .stored (loadRecords s ++ [record])

/-- Modelled from the spec: `load_all()`. -/
def load_all (s : StoreState) : List Row := loadRecords s

/-- C8: `append` writes back the previous contents plus the new record,
so on a previously-missing store `load_all` yields exactly the appended
record (in particular a field-for-field equal member). -/
theorem append_load_roundtrip (record : Row) (s : StoreState) :
    load_all (appendRecord s record) = load_all s ++ [record] ∧
    load_all (appendRecord .missing record) = [record] ∧
    record ∈ load_all (appendRecord .missing record) := by
  refine ⟨rfl, rfl, ?_⟩
  simp [load_all, appendRecord, loadRecords]

/-- C9: a fresh installation (users file absent or empty) is seeded with
exactly the three default accounts, and authentication then succeeds for
exactly those three username/password pairs. -/
theorem fresh_install_defaults :
    (_load_users .absent).1 = dummy_users ∧
    (_load_users .empty).1 = dummy_users ∧
    (_load_users .absent).2 = .valid dummy_users ∧
    dummy_users =
      [⟨"teacher1", "password123", "teacher"⟩,
       ⟨"parent1", "password123", "parent"⟩,
       ⟨"admin", "adminpassword", "admin"⟩] ∧
    (∀ username password,
      authenticate_user .absent username password = true ↔
        (username = "teacher1" ∧ password = "password123") ∨
        (username = "parent1" ∧ password = "password123") ∨
        (username = "admin" ∧ password = "adminpassword")) := by
  refine ⟨rfl, rfl, rfl, rfl, ?_⟩
  intro username password
  simp only [authenticate_user, _load_users, findUser, dummy_users,
    List.find?_isSome, List.mem_cons, List.not_mem_nil, or_false,
    Bool.and_eq_true, beq_iff_eq]
  constructor
  · rintro ⟨u, hu, h1, h2⟩
    rcases hu with rfl | rfl | rfl
    · exact Or.inl ⟨h1.symm, h2.symm⟩
    · exact Or.inr (Or.inl ⟨h1.symm, h2.symm⟩)
    · exact Or.inr (Or.inr ⟨h1.symm, h2.symm⟩)
  · rintro (⟨rfl, rfl⟩ | ⟨rfl, rfl⟩ | ⟨rfl, rfl⟩)
    · exact ⟨_, Or.inl rfl, rfl, rfl⟩
    · exact ⟨_, Or.inr (Or.inl rfl), rfl, rfl⟩
    · exact ⟨_, Or.inr (Or.inr rfl), rfl, rfl⟩

/-- A parent observation as read back from the observation store:
`child_name` and `date` are the fields the log view filters and sorts on;
the remaining fields ride along untouched
(`src/pages/03_Parent_Tracker.py`).  The source sorts on the ISO
`YYYY-MM-DD` date string, whose lexicographic order is the chronological
order; the embedding carries that order key as a natural number. -/
structure Observation where
  child_name : String
  date : ℕ
  fields : Row
  deriving DecidableEq, Repr

/-- `child_observations.sort(key=lambda x: x["date"], reverse=True)`
(`src/pages/03_Parent_Tracker.py` line 710): a stable sort, newest date
first (ISO date strings compare chronologically). -/
def sortByDateDesc (obs : List Observation) : List Observation :=
  obs.insertionSort (fun a b => b.date ≤ a.date)

/-- The observations-log view, `src/pages/03_Parent_Tracker.py` lines
699–726: keep the selected child's observations, sort newest-first, then
render only the first 20 (`child_observations[:20]`), skipping entries
that miss the optional date filter. -/
def observationsLog (allObs : List Observation) (child : String)
    (dateFilter : Option ℕ) : List Observation :=
  let childObs := allObs.filter (fun o => o.child_name == child)
  let sorted := sortByDateDesc childObs
  (sorted.take 20).filter (fun o =>
    match dateFilter with
    | some d => o.date == d
    | none => true)

/-- C10: the log renders at most 20 entries, all drawn from the first 20
of the child's observations sorted by date descending; the sorted
sequence is ordered newest-first and is a permutation of exactly the
child's observations. -/
theorem observations_log_spec (allObs : List Observation) (child : String)
    (dateFilter : Option ℕ) :
    (observationsLog allObs child dateFilter).length ≤ 20 ∧
    (∀ o, o ∈ observationsLog allObs child dateFilter →
      o ∈ (sortByDateDesc
        (allObs.filter (fun o => o.child_name == child))).take 20) ∧
    (∀ o, o ∈ observationsLog allObs child dateFilter →
      o.child_name = child) ∧
    (sortByDateDesc (allObs.filter (fun o => o.child_name == child))).Pairwise
      (fun a b => b.date ≤ a.date) ∧
    (sortByDateDesc (allObs.filter (fun o => o.child_name == child))).Perm
      (allObs.filter (fun o => o.child_name == child)) := by
  haveI htotal : IsTotal Observation (fun a b => b.date ≤ a.date) :=
    ⟨fun a b => le_total b.date a.date⟩
  haveI htrans : IsTrans Observation (fun a b => b.date ≤ a.date) :=
    ⟨fun _ _ _ h1 h2 => le_trans h2 h1⟩
  refine ⟨?_, ?_, ?_, ?_, ?_⟩
  · exact le_trans (List.length_filter_le _ _) (List.length_take_le _ _)
  · intro o ho
    exact List.mem_of_mem_filter ho
  · intro o ho
    have h1 : o ∈ (sortByDateDesc
        (allObs.filter (fun o => o.child_name == child))).take 20 :=
      List.mem_of_mem_filter ho
    have h2 : o ∈ sortByDateDesc
        (allObs.filter (fun o => o.child_name == child)) :=
      List.mem_of_mem_take h1
    have h3 : o ∈ allObs.filter (fun o => o.child_name == child) := by
      simpa [sortByDateDesc, List.mem_insertionSort] using h2
    have h4 := List.of_mem_filter h3
    simpa [beq_iff_eq] using h4
  · exact List.sorted_insertionSort _ _
  · exact List.perm_insertionSort _ _

/-- Witness for C10 on a concrete three-observation store: the view shows
both of child A's observations, newest first, and nothing of child B. -/
theorem observations_log_spec_witness :
    (observationsLog
      [⟨"A", 20240101, []⟩, ⟨"B", 20240105, []⟩,
       ⟨"A", 20240103, []⟩] "A" none).length ≤ 20 ∧
    (⟨"A", 20240103, []⟩ : Observation).child_name = "A" := by
  have h := observations_log_spec
    [⟨"A", 20240101, []⟩, ⟨"B", 20240105, []⟩,
     ⟨"A", 20240103, []⟩] "A" none
  refine ⟨h.1, h.2.2.1 ⟨"A", 20240103, []⟩ ?_⟩
  decide

end EduScan
